import Mathlib

/-
  Verification of the asynchronous dispatch layer of the statsd client
  (src/asyncclient.go).

  The Go code is embedded as a labeled small-step state machine:

  * Each metric-kind method of `AsyncClient` (Incr, Decr, Timing, …) builds
    a deferred call — a closure `func() error` invoking one operation of the
    underlying `StatsdClient` with the captured arguments — and sends it on
    the buffered channel `requestChan` (capacity 1000, asyncclient.go:23).
    The closures are defunctionalized into the sum type `MetricCall`, one
    constructor per metric kind carrying its captured arguments; the
    underlying `StatsdClient` (the Synchronous Emitter, external to this
    file) is abstracted as a function `emit : MetricCall F Ev → Option Err`
    returning `some e` exactly when the Go call returns a non-nil error.

  * The worker goroutine `process` (asyncclient.go:128-141) repeatedly
    receives from `requestChan`; a receive on a closed, empty channel makes
    it return; a non-nil error of an executed call is sent on the buffered
    channel `ErrorChan` (capacity 100, asyncclient.go:22), blocking while
    that channel is full.

  * Go channel semantics used: a send on a full buffered channel blocks, a
    send on a closed channel panics (modeled by `StepResult.abort`), a
    receive on a closed channel first drains the buffer and reports
    `open = false` only once the buffer is empty.

  The state `AsyncClient` carries the two channel buffers plus ghost trace
  fields (`submitted`, `emitted`, `errorLog`, `consumed`) recording, in
  order, every submission, every executed call, every posted error and
  every consumed error; `pendingError` holds an error that `process` has
  obtained from an executed call but not yet sent on `ErrorChan`
  (the worker standing at line 138).
-/

namespace Statsd

/-- Defunctionalized deferred call: one constructor per metric-kind method
of the Go `AsyncClient` (asyncclient.go:37-126), carrying the arguments the
closure captures at submission time.  `F` stands for Go `float64` and `Ev`
for `event.Event`; both are opaque here (no arithmetic is performed on
them), `Int` models Go `int64` and `time.Duration` (an `int64` of
nanoseconds). -/
inductive MetricCall (F Ev : Type) where
  | incr (stat : String) (count : Int)
  | decr (stat : String) (count : Int)
  | timing (stat : String) (delta : Int)
  | precisionTiming (stat : String) (delta : Int)
  | gauge (stat : String) (value : Int)
  | gaugeDelta (stat : String) (value : Int)
  | fgauge (stat : String) (value : F)
  | fgaugeDelta (stat : String) (value : F)
  | absolute (stat : String) (value : Int)
  | fabsolute (stat : String) (value : F)
  | total (stat : String) (value : Int)
  | sendEvent (e : Ev)
  deriving Repr, DecidableEq

/-- Capacity of the Work Queue `requestChan`:
`make(chan func() error, 1000)` (asyncclient.go:23). -/
def queueCap : Nat := 1000

/-- Capacity of the Error Channel `ErrorChan`:
`make(chan error, 100)` (asyncclient.go:22). -/
def errorCap : Nat := 100

/-- State of one `AsyncClient` instance together with ghost history.
`requestChan` and `ErrorChan` are the buffered-channel contents (head =
oldest element); `requestClosed` records `close(c.requestChan)`
(asyncclient.go:148); `workerDone` records that `process` has returned
(asyncclient.go:133); `pendingError` is an error produced by an executed
deferred call that `process` has not yet sent on `ErrorChan`
(between lines 136 and 138).  Ghost fields: `submitted` is the sequence of
all deferred calls ever enqueued, `emitted` the sequence of calls the
worker has executed against the emitter, `errorLog` all errors ever sent on
`ErrorChan`, `consumed` the errors the application has received from it. -/
structure AsyncClient (F Ev Err : Type) where
  requestChan : List (MetricCall F Ev)
  requestClosed : Bool
  ErrorChan : List Err
  workerDone : Bool
  pendingError : Option Err
  submitted : List (MetricCall F Ev)
  emitted : List (MetricCall F Ev)
  errorLog : List Err
  consumed : List Err
  deriving Repr, DecidableEq

/-- Outcome of attempting one atomic step: the step completed (`ok`), the
acting thread blocks (`blocked` — the Go operation does not return yet), or
the Go runtime panics (`abort` — send on a closed channel). -/
inductive StepResult (σ : Type) where
  | ok (s : σ)
  | blocked
  | abort
  deriving Repr, DecidableEq

variable {F Ev Err : Type}

/-- State produced by `NewAsyncClient` (asyncclient.go:19-29): both channel
buffers empty and open, the worker goroutine started (running, nothing
pending), empty history. -/
def initState : AsyncClient F Ev Err :=
  { requestChan := []
    requestClosed := false
    ErrorChan := []
    workerDone := false
    pendingError := none
    submitted := []
    emitted := []
    errorLog := []
    consumed := [] }

/-- Body shared by every metric-kind method (e.g. `Incr`,
asyncclient.go:37-41): `c.requestChan <- func() error { ... }`.  A send on
the closed channel panics; a send on a full channel blocks; otherwise the
deferred call is appended to the buffer (and to the ghost submission
trace). -/
def submit (s : AsyncClient F Ev Err) (m : MetricCall F Ev) :
    StepResult (AsyncClient F Ev Err) :=
  if s.requestClosed then .abort
  else if s.requestChan.length < queueCap then
    .ok { s with
      requestChan := s.requestChan ++ [m]
      submitted := s.submitted ++ [m] }
  else .blocked

/-- Labels for the atomic steps of the pipeline: a caller thread enqueues a
deferred call; the worker dequeues and executes one call
(asyncclient.go:130,136); the worker sends a pending error on `ErrorChan`
(line 138); the worker observes `open = false` and returns (lines 132-134);
the application receives one error from `ErrorChan`; `Close` succeeds and
closes `requestChan` (line 148). -/
inductive Action (F Ev : Type) where
  | submit (m : MetricCall F Ev)
  | work
  | workPost
  | workerExit
  | consume
  | closeQueue
  deriving Repr, DecidableEq

/-- One atomic step of the pipeline, parametrized by the Synchronous
Emitter `emit` (the `StatsdClient` operation the deferred call invokes:
`none` = nil error, `some e` = error `e`).

`work`: `req, open := <-c.requestChan` followed by `err := req()`
(asyncclient.go:130,136); enabled only while the worker is running and not
blocked sending a previous error; a receive on an empty channel blocks
(whether open or closed-and-drained: termination is the separate
`workerExit` step).  The executed call is recorded in `emitted`; a non-nil
result becomes `pendingError`.

`workPost`: `c.ErrorChan <- err` (line 138); blocks while `ErrorChan` holds
`errorCap` elements.

`workerExit`: the receive reported `open = false` — possible exactly when
the channel is closed and its buffer empty — and `process` returns
(lines 132-134).

`consume`: the application receives from `ErrorChan`.

`closeQueue`: `close(c.requestChan)` (line 148); closing a closed channel
panics. -/
def step (emit : MetricCall F Ev → Option Err) (s : AsyncClient F Ev Err) :
    Action F Ev → StepResult (AsyncClient F Ev Err)
  | .submit m => submit s m
  | .work =>
    if s.workerDone then .blocked
    else
      match s.pendingError, s.requestChan with
      | none, m :: rest =>
        .ok { s with
          requestChan := rest
          emitted := s.emitted ++ [m]
          pendingError := emit m }
      | _, _ => .blocked
  | .workPost =>
    if s.workerDone then .blocked
    else
      match s.pendingError with
      | some e =>
        if s.ErrorChan.length < errorCap then
          .ok { s with
            ErrorChan := s.ErrorChan ++ [e]
            errorLog := s.errorLog ++ [e]
            pendingError := none }
        else .blocked
      | none => .blocked
  | .workerExit =>
    if s.workerDone then .blocked
    else
      match s.pendingError, s.requestClosed, s.requestChan with
      | none, true, [] => .ok { s with workerDone := true }
      | _, _, _ => .blocked
  | .consume =>
    match s.ErrorChan with
    | [] => .blocked
    | e :: rest => .ok { s with ErrorChan := rest, consumed := s.consumed ++ [e] }
  | .closeQueue =>
    if s.requestClosed then .abort
    else .ok { s with requestClosed := true }

/-- `Close` (asyncclient.go:143-150).  `closeResult` is the outcome of the
external `c.statsd.Close()` call (line 144).  On error, that error is
returned and nothing else happens; on success, `close(c.requestChan)` is
performed and nil returned. -/
def Close (closeResult : Option Err) (s : AsyncClient F Ev Err) :
    Option Err × AsyncClient F Ev Err :=
  match closeResult with
  | some e => (some e, s)
  | none => (none, { s with requestClosed := true })

/-- The metric-kind methods of the facade, each enqueueing the deferred
call that captures its arguments (asyncclient.go:37-126). -/
def Incr (s : AsyncClient F Ev Err) (stat : String) (count : Int) :
    StepResult (AsyncClient F Ev Err) :=
  submit s (.incr stat count)

def Decr (s : AsyncClient F Ev Err) (stat : String) (count : Int) :
    StepResult (AsyncClient F Ev Err) :=
  submit s (.decr stat count)

def Timing (s : AsyncClient F Ev Err) (stat : String) (delta : Int) :
    StepResult (AsyncClient F Ev Err) :=
  submit s (.timing stat delta)

def PrecisionTiming (s : AsyncClient F Ev Err) (stat : String) (delta : Int) :
    StepResult (AsyncClient F Ev Err) :=
  submit s (.precisionTiming stat delta)

def Gauge (s : AsyncClient F Ev Err) (stat : String) (value : Int) :
    StepResult (AsyncClient F Ev Err) :=
  submit s (.gauge stat value)

def GaugeDelta (s : AsyncClient F Ev Err) (stat : String) (value : Int) :
    StepResult (AsyncClient F Ev Err) :=
  submit s (.gaugeDelta stat value)

def FGauge (s : AsyncClient F Ev Err) (stat : String) (value : F) :
    StepResult (AsyncClient F Ev Err) :=
  submit s (.fgauge stat value)

def FGaugeDelta (s : AsyncClient F Ev Err) (stat : String) (value : F) :
    StepResult (AsyncClient F Ev Err) :=
  submit s (.fgaugeDelta stat value)

def Absolute (s : AsyncClient F Ev Err) (stat : String) (value : Int) :
    StepResult (AsyncClient F Ev Err) :=
  submit s (.absolute stat value)

def FAbsolute (s : AsyncClient F Ev Err) (stat : String) (value : F) :
    StepResult (AsyncClient F Ev Err) :=
  submit s (.fabsolute stat value)

def Total (s : AsyncClient F Ev Err) (stat : String) (value : Int) :
    StepResult (AsyncClient F Ev Err) :=
  submit s (.total stat value)

def SendEvent (s : AsyncClient F Ev Err) (e : Ev) :
    StepResult (AsyncClient F Ev Err) :=
  submit s (.sendEvent e)

/-- States reachable from `initState` by completed steps of the pipeline. -/
inductive Reachable (emit : MetricCall F Ev → Option Err) :
    AsyncClient F Ev Err → Prop where
  | init : Reachable emit initState
  | next {s t : AsyncClient F Ev Err} {a : Action F Ev} :
      Reachable emit s → step emit s a = .ok t → Reachable emit t

/-- Enqueue a whole list of deferred calls from one caller thread,
returning `none` if any of the sends blocks or panics. -/
def submitAll (emit : MetricCall F Ev → Option Err) :
    AsyncClient F Ev Err → List (MetricCall F Ev) →
    Option (AsyncClient F Ev Err)
  | s, [] => some s
  | s, m :: ms =>
    match step emit s (.submit m) with
    | .ok t => submitAll emit t ms
    | _ => none

/-- Run a list of pipeline actions in order, returning `none` as soon as
one of them blocks or panics. -/
def runList (emit : MetricCall F Ev → Option Err) :
    AsyncClient F Ev Err → List (Action F Ev) →
    Option (AsyncClient F Ev Err)
  | s, [] => some s
  | s, a :: rest =>
    match step emit s a with
    | .ok t => runList emit t rest
    | _ => none

/-- A Synchronous Emitter whose every operation succeeds (returns a nil
error). -/
def emitOk : MetricCall Int Unit → Option String := fun _ => none

/-- A Synchronous Emitter whose every operation fails with error `"E"`. -/
def emitFail : MetricCall Int Unit → Option String := fun _ => some "E"

/-- Concrete state: `Incr("requests",1)` and `Gauge("temp",42)` submitted,
the first already executed by the worker. -/
def wC1 : AsyncClient Int Unit String :=
  { (initState : AsyncClient Int Unit String) with
    requestChan := [.gauge "temp" 42]
    submitted := [.incr "requests" 1, .gauge "temp" 42]
    emitted := [.incr "requests" 1] }

/-- Concrete state: two calls submitted and executed against an
always-failing emitter, both errors posted, the first consumed. -/
def wC2 : AsyncClient Int Unit String :=
  { (initState : AsyncClient Int Unit String) with
    ErrorChan := ["E"]
    submitted := [.incr "a" 1, .decr "b" 2]
    emitted := [.incr "a" 1, .decr "b" 2]
    errorLog := ["E", "E"]
    consumed := ["E"] }

/-- Concrete state: one call submitted, queue closed, the call drained and
the worker terminated. -/
def wC3 : AsyncClient Int Unit String :=
  { (initState : AsyncClient Int Unit String) with
    requestClosed := true
    workerDone := true
    submitted := [.timing "latency" 150]
    emitted := [.timing "latency" 150] }

/-- Concrete state: queue closed and drained, worker terminated. -/
def wC6 : AsyncClient Int Unit String :=
  { (initState : AsyncClient Int Unit String) with
    requestClosed := true
    workerDone := true }

/-- Concrete state: the worker holds a pending error while the Error
Channel is full (`errorCap` unconsumed errors). -/
def wC7 : AsyncClient Int Unit String :=
  { (initState : AsyncClient Int Unit String) with
    pendingError := some "E"
    ErrorChan := List.replicate errorCap "E"
    errorLog := List.replicate errorCap "E" }

/-- `wC7` after the application consumed one error. -/
def wC7c : AsyncClient Int Unit String :=
  { (initState : AsyncClient Int Unit String) with
    pendingError := some "E"
    ErrorChan := List.replicate (errorCap - 1) "E"
    errorLog := List.replicate errorCap "E"
    consumed := ["E"] }

/-- Concrete state: the Work Queue has been closed by a successful
`Close`. -/
def wC8 : AsyncClient Int Unit String :=
  { (initState : AsyncClient Int Unit String) with requestClosed := true }

/-- Concrete state: the three calls of the spec scenario submitted and
drained by the worker with an always-succeeding emitter. -/
def wC9 : AsyncClient Int Unit String :=
  { (initState : AsyncClient Int Unit String) with
    submitted := [.incr "requests" 1, .gauge "temp" 42, .timing "latency" 150]
    emitted := [.incr "requests" 1, .gauge "temp" 42, .timing "latency" 150] }

/-- Concrete state: one call still queued, worker running. -/
def wC10 : AsyncClient Int Unit String :=
  { (initState : AsyncClient Int Unit String) with
    requestChan := [.incr "x" 1]
    submitted := [.incr "x" 1] }

/-- Inductive invariant of the pipeline.  (1) the calls the worker has
executed, followed by the queue contents, are exactly the submitted calls
in submission order; (2) the errors of the executed calls, in execution
order, are exactly the posted errors followed by the not-yet-posted pending
one; (3) the consumed errors followed by the Error Channel contents are
exactly the posted errors in post order; (4) once the worker has
terminated, the queue is closed and empty and no error is pending. -/
def Inv (emit : MetricCall F Ev → Option Err) (s : AsyncClient F Ev Err) : Prop :=
  s.emitted ++ s.requestChan = s.submitted ∧
  s.emitted.filterMap emit = s.errorLog ++ s.pendingError.toList ∧
  s.consumed ++ s.ErrorChan = s.errorLog ∧
  (s.workerDone = true →
    s.requestClosed = true ∧ s.requestChan = [] ∧ s.pendingError = none)

lemma inv_init {emit : MetricCall F Ev → Option Err} :
    Inv emit (initState : AsyncClient F Ev Err) := by
  simp [Inv, initState]

lemma inv_step {emit : MetricCall F Ev → Option Err}
    {s t : AsyncClient F Ev Err} {a : Action F Ev}
    (hs : Inv emit s) (h : step emit s a = .ok t) : Inv emit t := by
  obtain ⟨h1, h2, h3, h4⟩ := hs
  cases a with
  | submit m =>
    simp only [step, submit] at h
    by_cases hc : s.requestClosed = true
    · simp [hc] at h
    · simp [hc] at h
      by_cases hl : s.requestChan.length < queueCap
      · simp [hl] at h
        subst h
        refine ⟨?_, h2, h3, ?_⟩
        · simp [← List.append_assoc, h1]
        · intro hd
          exact absurd (h4 hd).1 hc
      · simp [hl] at h
  | work =>
    simp only [step] at h
    by_cases hd : s.workerDone = true
    · simp [hd] at h
    · simp [hd] at h
      cases hp : s.pendingError with
      | some e => simp [hp] at h
      | none =>
        cases hq : s.requestChan with
        | nil => simp [hp, hq] at h
        | cons m rest =>
          simp only [hp, hq] at h
          simp at h
          subst h
          refine ⟨?_, ?_, h3, ?_⟩
          · rw [List.append_assoc]
            simpa [hq] using h1
          · have h2x : s.emitted.filterMap emit = s.errorLog := by
              simpa [hp] using h2
            rw [List.filterMap_append]
            cases he : emit m with
            | none => simp [he, h2x]
            | some e => simp [he, h2x]
          · intro hcontra
            simp at hcontra
  | workPost =>
    simp only [step] at h
    by_cases hd : s.workerDone = true
    · simp [hd] at h
    · simp [hd] at h
      cases hp : s.pendingError with
      | none => simp [hp] at h
      | some e =>
        simp only [hp] at h
        by_cases hl : s.ErrorChan.length < errorCap
        · simp [hl] at h
          subst h
          refine ⟨h1, ?_, ?_, ?_⟩
          · simpa [hp] using h2
          · simp [← List.append_assoc, h3]
          · intro hcontra
            simp at hcontra
        · simp [hl] at h
  | workerExit =>
    simp only [step] at h
    by_cases hd : s.workerDone = true
    · simp [hd] at h
    · simp [hd] at h
      cases hp : s.pendingError with
      | some e => simp [hp] at h
      | none =>
        cases hc : s.requestClosed with
        | false => simp [hp, hc] at h
        | true =>
          cases hq : s.requestChan with
          | cons m rest => simp [hp, hc, hq] at h
          | nil =>
            simp [hp, hc, hq] at h
            subst h
            refine ⟨?_, ?_, h3, ?_⟩
            · simpa [hq] using h1
            · simpa [hp] using h2
            · intro _
              exact ⟨rfl, rfl, rfl⟩
  | consume =>
    simp only [step] at h
    cases hq : s.ErrorChan with
    | nil => simp [hq] at h
    | cons e rest =>
      simp [hq] at h
      subst h
      refine ⟨h1, h2, ?_, ?_⟩
      · rw [List.append_assoc]
        simpa [hq] using h3
      · intro hd
        exact h4 hd
  | closeQueue =>
    simp only [step] at h
    by_cases hc : s.requestClosed = true
    · simp [hc] at h
    · simp [hc] at h
      subst h
      refine ⟨h1, h2, h3, ?_⟩
      · intro hd
        exact ⟨rfl, (h4 hd).2.1, (h4 hd).2.2⟩

lemma reachable_inv {emit : MetricCall F Ev → Option Err}
    {s : AsyncClient F Ev Err} (h : Reachable emit s) : Inv emit s := by
  induction h with
  | init => exact inv_init
  | next _ hstep ih => exact inv_step ih hstep

lemma runList_reachable {emit : MetricCall F Ev → Option Err}
    {s t : AsyncClient F Ev Err} (hs : Reachable emit s)
    (acts : List (Action F Ev)) (h : runList emit s acts = some t) :
    Reachable emit t := by
  induction acts generalizing s with
  | nil =>
    simp [runList] at h
    exact h ▸ hs
  | cons a rest ih =>
    simp only [runList] at h
    cases hstep : step emit s a with
    | ok u =>
      rw [hstep] at h
      exact ih (Reachable.next hs hstep) h
    | blocked => rw [hstep] at h; simp at h
    | abort => rw [hstep] at h; simp at h

/-- Inversion of a completed `work` step: the worker was running with no
pending error, it removed the head `m` of the queue, executed it, and its
result `emit m` became the pending error. -/
lemma work_ok {emit : MetricCall F Ev → Option Err}
    {s s' : AsyncClient F Ev Err} (h : step emit s .work = .ok s') :
    s.workerDone = false ∧ s.pendingError = none ∧
    ∃ m rest, s.requestChan = m :: rest ∧
      s' = { s with
        requestChan := rest
        emitted := s.emitted ++ [m]
        pendingError := emit m } := by
  simp only [step] at h
  by_cases hd : s.workerDone = true
  · simp [hd] at h
  · have hd' : s.workerDone = false := by simpa using hd
    cases hp : s.pendingError with
    | some e => simp [hd, hp] at h
    | none =>
      cases hq : s.requestChan with
      | nil => simp [hd, hp, hq] at h
      | cons m rest =>
        simp only [hd', hp, hq, Bool.false_eq_true, if_false] at h
        simp at h
        refine ⟨hd', rfl, m, rest, rfl, ?_⟩
        rw [hd']
        exact h.symm

lemma submitAll_ok {emit : MetricCall F Ev → Option Err}
    (ms : List (MetricCall F Ev)) :
    ∀ s : AsyncClient F Ev Err, s.requestClosed = false →
    s.requestChan.length + ms.length ≤ queueCap →
    ∃ t, submitAll emit s ms = some t ∧
      t.requestChan = s.requestChan ++ ms ∧ t.requestClosed = false := by
  induction ms with
  | nil =>
    intro s hc _
    exact ⟨s, by simp [submitAll], by simp, hc⟩
  | cons m rest ih =>
    intro s hc hlen
    have hlt : s.requestChan.length < queueCap := by
      simp at hlen
      omega
    have hstep : step emit s (.submit m) =
        .ok { s with
          requestChan := s.requestChan ++ [m]
          submitted := s.submitted ++ [m] } := by
      simp [step, submit, hc, hlt]
    obtain ⟨t, h1, h2, h3⟩ := ih
      { s with
        requestChan := s.requestChan ++ [m]
        submitted := s.submitted ++ [m] }
      hc (by simp at hlen ⊢; omega)
    refine ⟨t, ?_, ?_, h3⟩
    · simp only [submitAll, hstep]
      exact h1
    · simpa [List.append_assoc] using h2

/-- C1: in every reachable state of the pipeline, the deferred calls the
Dispatch Worker has executed against the Synchronous Emitter, followed by
the deferred calls still in the Work Queue, are exactly the submitted
calls with their captured arguments, in submission order — so execution
happens in exactly the submission order, with no reordering, merging,
duplication or dropping. -/
theorem spec_C1 {F Ev Err : Type} (emit : MetricCall F Ev → Option Err)
    (s : AsyncClient F Ev Err) (h : Reachable emit s) :
    s.emitted ++ s.requestChan = s.submitted :=
  (reachable_inv h).1

theorem spec_C1_witness :
    Reachable emitOk wC1 ∧ wC1.emitted ++ wC1.requestChan = wC1.submitted := by
  have hr : Reachable emitOk wC1 :=
    runList_reachable Reachable.init
      [.submit (.incr "requests" 1), .submit (.gauge "temp" 42), .work]
      (by decide)
  exact ⟨hr, spec_C1 emitOk wC1 hr⟩

/-- C2: in every reachable state, the errors returned by the Synchronous
Emitter for the executed deferred calls, taken verbatim and in execution
order, are exactly the errors posted to the Error Channel (followed by the
one error the worker may still be about to post) — one error per failing
call, none lost or duplicated; and the errors the application has consumed
followed by the Error Channel contents are exactly the posted errors in
post order. -/
theorem spec_C2 {F Ev Err : Type} (emit : MetricCall F Ev → Option Err)
    (s : AsyncClient F Ev Err) (h : Reachable emit s) :
    s.emitted.filterMap emit = s.errorLog ++ s.pendingError.toList ∧
    s.consumed ++ s.ErrorChan = s.errorLog :=
  ⟨(reachable_inv h).2.1, (reachable_inv h).2.2.1⟩

theorem spec_C2_witness :
    Reachable emitFail wC2 ∧
    (wC2.emitted.filterMap emitFail = wC2.errorLog ++ wC2.pendingError.toList ∧
      wC2.consumed ++ wC2.ErrorChan = wC2.errorLog) := by
  have hr : Reachable emitFail wC2 :=
    runList_reachable Reachable.init
      [.submit (.incr "a" 1), .submit (.decr "b" 2),
        .work, .workPost, .work, .workPost, .consume]
      (by decide)
  exact ⟨hr, spec_C2 emitFail wC2 hr⟩

/-- C3: in every reachable state in which the Dispatch Worker has
terminated, the Work Queue is empty and every deferred call ever enqueued
has been executed — closing the queue did not discard pending work; the
queue was drained before the worker exited. -/
theorem spec_C3 {F Ev Err : Type} (emit : MetricCall F Ev → Option Err)
    (s : AsyncClient F Ev Err) (h : Reachable emit s)
    (hdone : s.workerDone = true) :
    s.emitted = s.submitted ∧ s.requestChan = [] := by
  have inv := reachable_inv h
  have hq : s.requestChan = [] := (inv.2.2.2 hdone).2.1
  refine ⟨?_, hq⟩
  have h1 := inv.1
  rw [hq] at h1
  simpa using h1

theorem spec_C3_witness :
    Reachable emitOk wC3 ∧ wC3.workerDone = true ∧
    (wC3.emitted = wC3.submitted ∧ wC3.requestChan = []) := by
  have hr : Reachable emitOk wC3 :=
    runList_reachable Reachable.init
      [.submit (.timing "latency" 150), .closeQueue, .work, .workerExit]
      (by decide)
  exact ⟨hr, rfl, spec_C3 emitOk wC3 hr rfl⟩

/-- C4: the Work Queue capacity is fixed at 1000 entries; submitting any
sequence of at most `queueCap` metric-kind calls starting from a fresh
client never blocks (every send completes); with the queue open, a
metric-kind call blocks exactly when the queue is at capacity; and once
the Dispatch Worker dequeues one call from a full queue, a blocked
submission can complete. -/
theorem spec_C4 {F Ev Err : Type} :
    queueCap = 1000 ∧
    (∀ (emit : MetricCall F Ev → Option Err) (ms : List (MetricCall F Ev)),
      ms.length ≤ queueCap →
      ∃ t, submitAll emit initState ms = some t ∧ t.requestChan = ms) ∧
    (∀ (emit : MetricCall F Ev → Option Err) (s : AsyncClient F Ev Err)
      (m : MetricCall F Ev), s.requestClosed = false →
      (step emit s (.submit m) = .blocked ↔ queueCap ≤ s.requestChan.length)) ∧
    (∀ (emit : MetricCall F Ev → Option Err) (s s' : AsyncClient F Ev Err)
      (m : MetricCall F Ev), s.requestClosed = false →
      s.requestChan.length = queueCap →
      step emit s .work = .ok s' →
      ∃ t, step emit s' (.submit m) = .ok t) := by
  refine ⟨rfl, ?_, ?_, ?_⟩
  · intro emit ms hlen
    obtain ⟨t, h1, h2, -⟩ :=
      submitAll_ok ms initState rfl (by simpa [initState] using hlen)
    exact ⟨t, h1, by simpa [initState] using h2⟩
  · intro emit s m hc
    simp only [step, submit, hc]
    by_cases hl : s.requestChan.length < queueCap
    · simp [hl]
    · simp [hl]
      all_goals omega
  · intro emit s s' m hc hlen hw
    obtain ⟨-, -, m', rest, hq, hs'⟩ := work_ok hw
    have hlen' : s'.requestChan.length < queueCap := by
      rw [hs']
      rw [hq] at hlen
      simp at hlen ⊢
      omega
    have hc' : s'.requestClosed = false := by
      rw [hs']
      exact hc
    exact ⟨{ s' with
        requestChan := s'.requestChan ++ [m]
        submitted := s'.submitted ++ [m] },
      by simp [step, submit, hc', hlen']⟩

theorem spec_C4_witness :
    ([MetricCall.incr "a" 1] : List (MetricCall Int Unit)).length ≤ queueCap ∧
    ∃ t, submitAll emitOk initState [MetricCall.incr "a" 1] = some t ∧
      t.requestChan = [MetricCall.incr "a" 1] :=
  ⟨by decide,
    (@spec_C4 Int Unit String).2.1 emitOk [MetricCall.incr "a" 1] (by decide)⟩

/-- C5: when the Synchronous Emitter close operation fails during
`Close()`, that error is returned immediately and verbatim to the caller,
and the whole pipeline state — including the open Work Queue and the
running Dispatch Worker — is completely unchanged. -/
theorem spec_C5 {F Ev Err : Type} (e : Err) (s : AsyncClient F Ev Err) :
    Close (some e) s = (some e, s) := rfl

/-- C6: a completed `work` step (even one whose emitter call returns an
error) and a completed error post never terminate the Dispatch Worker; a
call at the head of the queue can always be executed by a running worker
with no pending error, whatever the emitter returns; the worker terminates
exactly when its dequeue observes the Work Queue closed with no remaining
entries; and after termination no worker step can ever complete again (no
restart). -/
theorem spec_C6 {F Ev Err : Type} :
    (∀ (emit : MetricCall F Ev → Option Err) (s s' : AsyncClient F Ev Err),
      step emit s .work = .ok s' → s'.workerDone = false) ∧
    (∀ (emit : MetricCall F Ev → Option Err) (s s' : AsyncClient F Ev Err),
      step emit s .workPost = .ok s' → s'.workerDone = false) ∧
    (∀ (emit : MetricCall F Ev → Option Err) (s : AsyncClient F Ev Err)
      (m : MetricCall F Ev) (rest : List (MetricCall F Ev)),
      s.workerDone = false → s.pendingError = none →
      s.requestChan = m :: rest → ∃ s', step emit s .work = .ok s') ∧
    (∀ (emit : MetricCall F Ev → Option Err) (s s' : AsyncClient F Ev Err),
      step emit s .workerExit = .ok s' ↔
        (s.workerDone = false ∧ s.pendingError = none ∧
          s.requestClosed = true ∧ s.requestChan = [] ∧
          s' = { s with workerDone := true })) ∧
    (∀ (emit : MetricCall F Ev → Option Err) (s : AsyncClient F Ev Err),
      s.workerDone = true →
      step emit s .work = .blocked ∧ step emit s .workPost = .blocked ∧
      step emit s .workerExit = .blocked) := by
  refine ⟨?_, ?_, ?_, ?_, ?_⟩
  · intro emit s s' h
    obtain ⟨hd, -, m, rest, -, hs'⟩ := work_ok h
    simp [hs', hd]
  · intro emit s s' h
    simp only [step] at h
    by_cases hd : s.workerDone = true
    · simp [hd] at h
    · cases hp : s.pendingError with
      | none => simp [hd, hp] at h
      | some e =>
        by_cases hl : s.ErrorChan.length < errorCap
        · simp [hd, hp, hl] at h
          subst h
          simp
        · simp [hd, hp, hl] at h
  · intro emit s m rest hd hp hq
    exact ⟨{ s with
        requestChan := rest
        emitted := s.emitted ++ [m]
        pendingError := emit m },
      by simp [step, hd, hp, hq]⟩
  · intro emit s s'
    constructor
    · intro h
      simp only [step] at h
      by_cases hd : s.workerDone = true
      · simp [hd] at h
      · have hd' : s.workerDone = false := by simpa using hd
        cases hp : s.pendingError with
        | some e => simp [hd, hp] at h
        | none =>
          cases hc : s.requestClosed with
          | false => simp [hd, hp, hc] at h
          | true =>
            cases hq : s.requestChan with
            | cons m rest => simp [hd, hp, hc, hq] at h
            | nil =>
              simp [hd, hp, hc, hq] at h
              refine ⟨hd', rfl, rfl, rfl, ?_⟩
              subst h
              simp [hq, hc, hp, hd']
    · rintro ⟨hd, hp, hc, hq, hs'⟩
      subst hs'
      simp [step, hd, hp, hc, hq]
  · intro emit s hd
    refine ⟨?_, ?_, ?_⟩ <;> simp [step, hd]

theorem spec_C6_witness :
    wC6.workerDone = true ∧
    (step emitOk wC6 .work = .blocked ∧ step emitOk wC6 .workPost = .blocked ∧
      step emitOk wC6 .workerExit = .blocked) :=
  ⟨rfl, (@spec_C6 Int Unit String).2.2.2.2 emitOk wC6 rfl⟩

/-- C7: the Error Channel capacity is fixed at 100; when the worker holds
an error of an executed deferred call and the Error Channel is full
(`errorCap` or more unconsumed errors), the post blocks; while the post is
blocked the worker cannot execute any further deferred call (the whole
dispatch pipeline stalls); and once the application consumes one error,
the blocked post can complete. -/
theorem spec_C7 {F Ev Err : Type} :
    errorCap = 100 ∧
    (∀ (emit : MetricCall F Ev → Option Err) (s : AsyncClient F Ev Err)
      (e : Err), s.pendingError = some e →
      errorCap ≤ s.ErrorChan.length → step emit s .workPost = .blocked) ∧
    (∀ (emit : MetricCall F Ev → Option Err) (s : AsyncClient F Ev Err)
      (e : Err), s.pendingError = some e → step emit s .work = .blocked) ∧
    (∀ (emit : MetricCall F Ev → Option Err) (s s' : AsyncClient F Ev Err)
      (e : Err), s.workerDone = false → s.pendingError = some e →
      s.ErrorChan.length = errorCap → step emit s .consume = .ok s' →
      ∃ t, step emit s' .workPost = .ok t) := by
  refine ⟨rfl, ?_, ?_, ?_⟩
  · intro emit s e hp hl
    simp only [step]
    by_cases hd : s.workerDone = true
    · simp [hd]
    · simp [hd, hp]
      omega
  · intro emit s e hp
    simp only [step]
    by_cases hd : s.workerDone = true
    · simp [hd]
    · simp [hd, hp]
  · intro emit s s' e hd hp hl hcons
    simp only [step] at hcons
    cases hq : s.ErrorChan with
    | nil =>
      rw [hq] at hl
      simp [errorCap] at hl
    | cons e0 rest =>
      have hlt : rest.length < errorCap := by
        rw [hq] at hl
        simp at hl
        omega
      simp [hq] at hcons
      subst hcons
      exact ⟨{ s with
          ErrorChan := rest ++ [e]
          consumed := s.consumed ++ [e0]
          errorLog := s.errorLog ++ [e]
          pendingError := none },
        by simp [step, hd, hp, hlt]⟩

theorem spec_C7_witness :
    wC7.pendingError = some "E" ∧ errorCap ≤ wC7.ErrorChan.length ∧
    step emitFail wC7 .workPost = .blocked ∧
    step emitFail wC7 .consume = .ok wC7c ∧
    (∃ t, step emitFail wC7c .workPost = .ok t) := by
  refine ⟨rfl, by decide, ?_, by decide, ?_⟩
  · exact (@spec_C7 Int Unit String).2.1 emitFail wC7 "E" rfl (by decide)
  · exact (@spec_C7 Int Unit String).2.2.2 emitFail wC7 wC7c "E" rfl rfl
      (by decide) (by decide)

/-- C8: once the Work Queue has been closed, every further metric-kind
method call aborts (the send on the closed channel panics): it neither
completes normally nor blocks nor silently drops the metric; and a
successful `Close` does close the Work Queue. -/
theorem spec_C8 {F Ev Err : Type} :
    (∀ (emit : MetricCall F Ev → Option Err) (s : AsyncClient F Ev Err)
      (m : MetricCall F Ev), s.requestClosed = true →
      step emit s (.submit m) = .abort) ∧
    (∀ s : AsyncClient F Ev Err, ((Close none s).2).requestClosed = true) ∧
    (∀ t : AsyncClient F Ev Err,
      (StepResult.abort : StepResult (AsyncClient F Ev Err)) ≠ .ok t ∧
      (StepResult.abort : StepResult (AsyncClient F Ev Err)) ≠ .blocked) := by
  refine ⟨?_, ?_, ?_⟩
  · intro emit s m hc
    simp [step, submit, hc]
  · intro s
    rfl
  · intro t
    exact ⟨by simp, by simp⟩

theorem spec_C8_witness :
    wC8.requestClosed = true ∧
    step emitOk wC8 (.submit (.incr "x" 1)) = .abort :=
  ⟨rfl, (@spec_C8 Int Unit String).1 emitOk wC8 (.incr "x" 1) rfl⟩

/-- C9: executing a deferred call whose emitter operation succeeds leaves
the Error Channel, the error history and the pending error untouched; and
with an emitter whose every operation succeeds, every reachable state has
an empty Error Channel and an empty error history — nothing is ever
posted. -/
theorem spec_C9 {F Ev Err : Type} :
    (∀ (emit : MetricCall F Ev → Option Err) (s s' : AsyncClient F Ev Err)
      (m : MetricCall F Ev) (rest : List (MetricCall F Ev)),
      s.requestChan = m :: rest → emit m = none →
      step emit s .work = .ok s' →
      s'.ErrorChan = s.ErrorChan ∧ s'.errorLog = s.errorLog ∧
        s'.pendingError = none) ∧
    (∀ (emit : MetricCall F Ev → Option Err), (∀ m, emit m = none) →
      ∀ s : AsyncClient F Ev Err, Reachable emit s →
      s.ErrorChan = [] ∧ s.errorLog = []) := by
  constructor
  · intro emit s s' m rest hq hm hw
    obtain ⟨-, -, m', rest', hq', hs'⟩ := work_ok hw
    rw [hq] at hq'
    injection hq' with hm' hrest'
    subst hm'
    subst hs'
    exact ⟨rfl, rfl, by simp [hm]⟩
  · intro emit hok s hr
    have inv := reachable_inv hr
    have hfm : s.emitted.filterMap emit = [] := by
      induction s.emitted with
      | nil => rfl
      | cons a l2 ih => simp [List.filterMap_cons, hok a, ih]
    have h2 := inv.2.1
    rw [hfm] at h2
    have hlog : s.errorLog = [] := by
      cases hpl : s.pendingError with
      | none =>
        rw [hpl] at h2
        simpa using h2.symm
      | some e =>
        rw [hpl] at h2
        exact absurd h2.symm (by simp)
    have h3 := inv.2.2.1
    rw [hlog] at h3
    exact ⟨(List.append_eq_nil.mp h3).2, hlog⟩

theorem spec_C9_witness :
    emitOk (MetricCall.incr "requests" 1) = none ∧
    Reachable emitOk wC9 ∧ (wC9.ErrorChan = [] ∧ wC9.errorLog = []) := by
  have hr : Reachable emitOk wC9 :=
    runList_reachable Reachable.init
      [.submit (.incr "requests" 1), .submit (.gauge "temp" 42),
        .submit (.timing "latency" 150), .work, .work, .work]
      (by decide)
  exact ⟨rfl, hr, (@spec_C9 Int Unit String).2 emitOk (fun m => rfl) wC9 hr⟩

/-- C10: when the transport close succeeds, `Close` returns a nil error
and its only effect is marking the Work Queue closed — the queue contents,
the Error Channel, the worker status and all histories are unchanged (no
call is executed or discarded and no join of the worker happens); and a
deferred call still queued at that point can still be executed by the
Dispatch Worker after `Close` has returned. -/
theorem spec_C10 {F Ev Err : Type} :
    (∀ s : AsyncClient F Ev Err,
      Close none s = (none, { s with requestClosed := true })) ∧
    (∀ (emit : MetricCall F Ev → Option Err) (s : AsyncClient F Ev Err)
      (m : MetricCall F Ev) (rest : List (MetricCall F Ev)),
      s.workerDone = false → s.pendingError = none →
      s.requestChan = m :: rest →
      ∃ t, step emit (Close none s).2 .work = .ok t) := by
  constructor
  · intro s
    rfl
  · intro emit s m rest hd hp hq
    exact ⟨{ s with
        requestClosed := true
        requestChan := rest
        emitted := s.emitted ++ [m]
        pendingError := emit m },
      by simp [Close, step, hd, hp, hq]⟩

theorem spec_C10_witness :
    Close none wC10 = (none, { wC10 with requestClosed := true }) ∧
    wC10.workerDone = false ∧ wC10.pendingError = none ∧
    wC10.requestChan = [MetricCall.incr "x" 1] ∧
    ∃ t, step emitOk (Close none wC10).2 .work = .ok t := by
  refine ⟨(@spec_C10 Int Unit String).1 wC10, rfl, rfl, rfl, ?_⟩
  exact (@spec_C10 Int Unit String).2 emitOk wC10 (.incr "x" 1) [] rfl rfl rfl

end Statsd
